import Mathlib

/-!
# Verification of the state-based sync engine of `fast-ftp-site-sync`

Shallow embedding of the synchronization core of the repository:

* `StateManager.compareStates` (state-manager, lines 128–181) — the diff
  engine comparing a local state against an optional remote state;
* `StateManager.downloadRemoteState` (state-manager, lines 55–78) — the
  remote-manifest retriever with its catch-all error recovery;
* `StateManager.uploadState` / the manifest JSON schema (state-manager,
  lines 83–99 and 41–46) — serialization of a sync state;
* the plan-execution phase of `run` (`src/index.js`, lines 95–128) —
  which remote writes are performed for a computed plan.

JavaScript objects keyed by path are embedded as association lists
`List (String × FileRecord)`; JavaScript's JSON values are embedded as the
inductive type `Json`.  The platform JSON text codec (`JSON.parse` /
`JSON.stringify`) is treated as a faithful bijection between byte streams
and `Json` trees; parse failures of malformed bytes are represented by the
`Option Json` outcome of that codec.
-/

namespace FastFtpSiteSync

/-- A per-file record as produced by `buildLocalState` (state-manager,
lines 41–46): MD5 hash, byte size, modification time and the local path. -/
structure FileRecord where
  hash : String
  size : Nat
  mtime : String
  localPath : String
deriving DecidableEq, Repr

/-- A sync state (`{ version, lastSync, files }`, state-manager lines
8–12 and 31–35).  `files` maps remote-relative paths to `FileRecord`s;
JavaScript object key uniqueness corresponds to `Nodup` of the keys. -/
structure SyncState where
  version : String
  lastSync : Option String
  files : List (String × FileRecord)
deriving DecidableEq, Repr

/-- One element of `filesToUpload` (state-manager lines 149–154 and
158–164): the action tag is `"new"` or `"modified"`; `oldHash` is present
only on `"modified"` entries. -/
structure UploadEntry where
  action : String
  remotePath : String
  localPath : String
  hash : String
  oldHash : Option String
deriving DecidableEq, Repr

/-- The `stats` accumulator of `compareStates` (state-manager lines
132–137). -/
structure SyncStats where
  unchanged : Nat
  modified : Nat
  new : Nat
  deleted : Nat
deriving DecidableEq, Repr

/-- The result object of `compareStates` (state-manager lines 129–138). -/
structure ComparisonResult where
  filesToUpload : List UploadEntry
  filesToDelete : List String
  stats : SyncStats
deriving DecidableEq, Repr

/-- Embedding of `const remoteFiles = remoteState ? remoteState.files : {}`
(state-manager, line 140). -/
def remoteFilesOf (remoteState : Option SyncState) : List (String × FileRecord) :=
  match remoteState with
  | some r => r.files
  | none => []

/-- The body of the first loop of `compareStates` (state-manager, lines
144–170): classify one local entry against the remote files as new /
modified / unchanged, pushing upload entries and bumping counters. -/
def localStep (remoteFiles : List (String × FileRecord))
    (result : ComparisonResult) (entry : String × FileRecord) :
    ComparisonResult :=
  let remotePath := entry.1
  let localFile := entry.2
  match List.lookup remotePath remoteFiles with
  | none =>
      { result with
        filesToUpload := result.filesToUpload ++
          [{ action := "new", remotePath := remotePath,
             localPath := localFile.localPath, hash := localFile.hash,
             oldHash := none }],
        stats := { result.stats with new := result.stats.new + 1 } }
  | some remoteFile =>
      if remoteFile.hash ≠ localFile.hash then
        { result with
          filesToUpload := result.filesToUpload ++
            [{ action := "modified", remotePath := remotePath,
               localPath := localFile.localPath, hash := localFile.hash,
               oldHash := some remoteFile.hash }],
          stats := { result.stats with modified := result.stats.modified + 1 } }
      else
        { result with
          stats := { result.stats with unchanged := result.stats.unchanged + 1 } }

/-- The body of the second loop of `compareStates` (state-manager, lines
173–178): a remote path absent from the local files is appended to
`filesToDelete`. -/
def remoteStep (localFiles : List (String × FileRecord))
    (result : ComparisonResult) (entry : String × FileRecord) :
    ComparisonResult :=
  if (List.lookup entry.1 localFiles).isNone then
    { result with
      filesToDelete := result.filesToDelete ++ [entry.1],
      stats := { result.stats with deleted := result.stats.deleted + 1 } }
  else result

/-- Embedding of `compareStates(localState, remoteState)` (state-manager,
lines 128–181), translated loop by loop: the first `foldl` is the
`for … of Object.entries(localFiles)` loop classifying each local entry
as new / modified / unchanged, the second `foldl` is the
`for … of Object.keys(remoteFiles)` loop collecting orphans.  `remoteState`
is `Option`al (`null` in the source); `remoteFiles[p]` lookups become
`List.lookup`. -/
def compareStates (localState : SyncState) (remoteState : Option SyncState) :
    ComparisonResult :=
  let remoteFiles := remoteFilesOf remoteState
  let localFiles := localState.files
  let afterLocal := localFiles.foldl (localStep remoteFiles)
    { filesToUpload := [], filesToDelete := [],
      stats := { unchanged := 0, modified := 0, new := 0, deleted := 0 } }
  remoteFiles.foldl (remoteStep localFiles) afterLocal

/-- `generateSyncSummary` (state-manager, lines 186–198), the reporting
helper used by `run` before executing the plan. -/
structure SyncSummary where
  total : Nat
  toUpload : Nat
  toDelete : Nat
  unchanged : Nat
  forceFullSync : Bool
deriving DecidableEq, Repr

def generateSyncSummary (comparison : ComparisonResult)
    (forceFullSync : Bool := false) : SyncSummary :=
  let stats := comparison.stats
  { total := stats.new + stats.modified + stats.unchanged + stats.deleted,
    toUpload := stats.new + stats.modified,
    toDelete := stats.deleted,
    unchanged := stats.unchanged,
    forceFullSync := forceFullSync }

/-! ## Compositional characterization of the diff loops

Recursive functions equal (proved below) to what the imperative loops of
`compareStates` accumulate; they exist only to make induction possible. -/

/-- Upload entries that the first loop of `compareStates` emits for a list
of local entries, in iteration order. -/
def uploadsFor (remoteFiles : List (String × FileRecord)) :
    List (String × FileRecord) → List UploadEntry
  | [] => []
  | e :: rest =>
    (match List.lookup e.1 remoteFiles with
     | none =>
        [{ action := "new", remotePath := e.1, localPath := e.2.localPath,
           hash := e.2.hash, oldHash := none }]
     | some rf =>
        if rf.hash ≠ e.2.hash then
          [{ action := "modified", remotePath := e.1, localPath := e.2.localPath,
             hash := e.2.hash, oldHash := some rf.hash }]
        else []) ++ uploadsFor remoteFiles rest

/-- Decides whether a local entry is classified `new` by `compareStates`
(no remote record under its path). -/
def isNewFor (remoteFiles : List (String × FileRecord))
    (e : String × FileRecord) : Bool :=
  (List.lookup e.1 remoteFiles).isNone

/-- Decides whether a local entry is classified `modified` by
`compareStates` (remote record present, hash differs). -/
def isModifiedFor (remoteFiles : List (String × FileRecord))
    (e : String × FileRecord) : Bool :=
  match List.lookup e.1 remoteFiles with
  | some rf => rf.hash != e.2.hash
  | none => false

/-- Decides whether a local entry is classified `unchanged` by
`compareStates` (remote record present, hash equal). -/
def isUnchangedFor (remoteFiles : List (String × FileRecord))
    (e : String × FileRecord) : Bool :=
  match List.lookup e.1 remoteFiles with
  | some rf => rf.hash == e.2.hash
  | none => false

/-- Remote paths that the second loop of `compareStates` appends to
`filesToDelete`: remote entries whose path has no local record. -/
def deletesFor (localFiles remoteFiles : List (String × FileRecord)) :
    List String :=
  remoteFiles.filterMap
    (fun e => if (List.lookup e.1 localFiles).isNone then some e.1 else none)

/-! ## JSON values and the remote-manifest retriever -/

/-- JavaScript JSON values, as produced by `JSON.parse` and consumed by
the engine.  Numbers occurring in manifests are the non-negative byte
sizes written by `buildLocalState`, so they are embedded as `Nat`. -/
inductive Json where
  | null : Json
  | bool (b : Bool) : Json
  | num (n : Nat) : Json
  | str (s : String) : Json
  | arr (elems : List Json) : Json
  | obj (fields : List (String × Json)) : Json
deriving Repr

/-- Property access `j.key` on a parsed JSON value: defined on objects,
`undefined` (here `none`) otherwise. -/
def getField (j : Json) (key : String) : Option Json :=
  match j with
  | .obj fields => List.lookup key fields
  | _ => none

/-- Access `remoteState.files` as performed by `run` (`src/index.js`,
line 79: `Object.keys(remoteState.files)`) and by `compareStates`; it
succeeds only when the parsed value carries an object under `files` —
otherwise the JavaScript code throws a `TypeError`. -/
def remoteFilesAccess (j : Json) : Option (List (String × Json)) :=
  match getField j "files" with
  | some (.obj fields) => some fields
  | _ => none

/-- Everything the transport and the platform JSON parser can do when
`downloadRemoteState` runs (state-manager, lines 55–78):

* `missing` — the existence check of line 60 reports the manifest absent
  (including the case where the check itself threw, `remoteFileExists`
  returning `false`, lines 104–123);
* `transportFailure` — `client.downloadFile` or the temp-file read threw;
* `downloaded p` — bytes were fetched and `JSON.parse` on them yielded
  `p` (`none` models a `SyntaxError` on malformed bytes). -/
inductive RetrievalOutcome where
  | missing : RetrievalOutcome
  | transportFailure (message : String) : RetrievalOutcome
  | downloaded (parsed : Option Json) : RetrievalOutcome

/-- The `try` block of `downloadRemoteState` (state-manager, lines 56–73)
before its `catch`: an `Except` value records whether an exception is in
flight when control leaves the block.  Note the code returns whatever
`JSON.parse` produced (line 73) — it inspects neither a version field nor
the presence of required fields. -/
def downloadRemoteStateBody : RetrievalOutcome → Except String (Option Json)
  | .missing => .ok none
  | .transportFailure message => .error message
  | .downloaded none => .error "Unexpected token in JSON"
  | .downloaded (some j) => .ok (some j)

/-- Embedding of `downloadRemoteState` (state-manager, lines 55–78): the
`catch` of lines 74–77 turns every exception of the body into a warning
plus `null`.  The total return type `Option Json` shows no error can
propagate to the caller. -/
def downloadRemoteState (outcome : RetrievalOutcome) : Option Json :=
  match downloadRemoteStateBody outcome with
  | .ok v => v
  | .error _ => none

/-! ## Manifest serialization (`uploadState`) and its inverse reading -/

/-- The JSON object written for one file record, field for field the
object literal of `buildLocalState` (state-manager, lines 41–46). -/
def fileRecordToJson (r : FileRecord) : Json :=
  .obj [("hash", .str r.hash), ("size", .num r.size),
        ("mtime", .str r.mtime), ("localPath", .str r.localPath)]

/-- The JSON tree that `JSON.stringify(state, null, 2)` in `uploadState`
(state-manager, line 89) renders: the state object
`{ version, lastSync, files }` with the fields in construction order
(lines 8–12 / 31–35). -/
def syncStateToJson (s : SyncState) : Json :=
  .obj [("version", .str s.version),
        ("lastSync", match s.lastSync with | some t => .str t | none => .null),
        ("files", .obj (s.files.map (fun e => (e.1, fileRecordToJson e.2))))]

/-- Reads one file record back from a parsed manifest, via the property
accesses the engine performs on remote records (`hash` in `compareStates`
line 156, the remaining fields per the schema written by
`buildLocalState`). -/
def jsonToFileRecord (j : Json) : Option FileRecord :=
  match getField j "hash", getField j "size", getField j "mtime",
        getField j "localPath" with
  | some (.str h), some (.num n), some (.str m), some (.str lp) =>
      some { hash := h, size := n, mtime := m, localPath := lp }
  | _, _, _, _ => none

/-- Reads the `lastSync` field back: a string or `null` (state-manager,
lines 10 and 33). -/
def jsonToLastSync : Json → Option (Option String)
  | .null => some none
  | .str t => some (some t)
  | _ => none

/-- Reads the entries of the `files` mapping back, entry by entry. -/
def jsonToFileEntries : List (String × Json) → Option (List (String × FileRecord))
  | [] => some []
  | e :: rest =>
    match jsonToFileRecord e.2, jsonToFileEntries rest with
    | some r, some rs => some ((e.1, r) :: rs)
    | _, _ => none

/-- Reads the `files` mapping back from a parsed manifest. -/
def jsonToFiles (j : Json) : Option (List (String × FileRecord)) :=
  match j with
  | .obj fields => jsonToFileEntries fields
  | _ => none

/-- Reads a whole sync state back from a parsed manifest; this is the
manifest value as the engine consumes it (`.version`, `.files`, per-file
fields), so `jsonToSyncState (syncStateToJson s) = some s` is the
round-trip property of the schema. -/
def jsonToSyncState (j : Json) : Option SyncState :=
  match getField j "version", getField j "lastSync", getField j "files" with
  | some (.str v), some lsJ, some fJ =>
      (match jsonToLastSync lsJ, jsonToFiles fJ with
       | some ls, some fs => some { version := v, lastSync := ls, files := fs }
       | _, _ => none)
  | _, _, _ => none

/-! ## The plan-execution phase of `run` (`src/index.js`, lines 95–128) -/

/-- A remote write performed through the transport client. -/
inductive RemoteWrite where
  | uploadFile (localPath remotePath : String) : RemoteWrite
  | deleteFile (remotePath : String) : RemoteWrite
  | uploadStateFile (remotePath : String) : RemoteWrite
deriving DecidableEq, Repr

/-- Records which remote path a write targets; the normalization details
of the platform `path.posix.join` are not modelled (no claim depends on
them). -/
def posixJoin (a b : String) : String := a ++ "/" ++ b

/-- The sequence of remote writes `run` performs for a computed plan
(`src/index.js`, lines 95–128), in program order: the upload loop (lines
95–106, skipped per file when `dryRun`), the orphan-deletion loop (lines
109–121, entered only when `deleteOrphaned` and the orphan list is
non-empty, each deletion skipped when `dryRun`), and the manifest publish
`uploadState` (lines 124–128, skipped when `dryRun`). -/
def runWrites (comparison : ComparisonResult) (dryRun deleteOrphaned : Bool)
    (remotePath : String) : List RemoteWrite :=
  (comparison.filesToUpload.foldl (fun writes fileInfo =>
      writes ++ (if dryRun then [] else
        [RemoteWrite.uploadFile fileInfo.localPath
          (posixJoin remotePath fileInfo.remotePath)])) []) ++
  (if deleteOrphaned && decide (0 < comparison.filesToDelete.length) then
      comparison.filesToDelete.foldl (fun writes remoteFile =>
        writes ++ (if dryRun then [] else
          [RemoteWrite.deleteFile (posixJoin remotePath remoteFile)])) []
    else []) ++
  (if !dryRun then [RemoteWrite.uploadStateFile remotePath] else [])

/-! ## Concrete fixtures used by witnesses and counterexamples -/

/-- A two-file local state (hashes `hash1`, `hash2`). -/
def sampleLocalState : SyncState :=
  { version := "1.0.0", lastSync := some "2023-01-02T00:00:00.000Z",
    files := [("file1.txt",
                { hash := "hash1", size := 8,
                  mtime := "2023-01-02T00:00:00.000Z",
                  localPath := "/local/file1.txt" }),
              ("file2.txt",
                { hash := "hash2", size := 9,
                  mtime := "2023-01-02T00:00:00.000Z",
                  localPath := "/local/file2.txt" })] }

/-- A remote state with the same paths and hashes as `sampleLocalState`
but different sizes and timestamps. -/
def sampleRemoteState : SyncState :=
  { version := "1.0.0", lastSync := some "2022-12-31T00:00:00.000Z",
    files := [("file1.txt",
                { hash := "hash1", size := 999,
                  mtime := "2022-12-31T00:00:00.000Z", localPath := "" }),
              ("file2.txt",
                { hash := "hash2", size := 777,
                  mtime := "2022-12-31T00:00:00.000Z", localPath := "" })] }

/-- A remote state against `sampleLocalState` with one unchanged file,
one stale hash and one orphan. -/
def mixedRemoteState : SyncState :=
  { version := "1.0.0", lastSync := some "2022-12-31T00:00:00.000Z",
    files := [("file1.txt",
                { hash := "hash1", size := 8,
                  mtime := "2022-12-31T00:00:00.000Z", localPath := "" }),
              ("file2.txt",
                { hash := "oldhash2", size := 9,
                  mtime := "2022-12-31T00:00:00.000Z", localPath := "" }),
              ("file4.txt",
                { hash := "hash4", size := 4,
                  mtime := "2022-12-31T00:00:00.000Z", localPath := "" })] }

/-- A parsed manifest whose `version` field is not the `1.0.0` this
engine writes. -/
def unknownVersionManifest : Json :=
  .obj [("version", .str "9.9.9"), ("lastSync", .null), ("files", .obj [])]

/-- A well-formed parsed manifest missing the required `files` mapping. -/
def missingFilesManifest : Json :=
  .obj [("version", .str "1.0.0")]

/-! ## Helper lemmas -/

theorem lookup_isSome_of_mem {l : List (String × FileRecord)} {p : String}
    {v : FileRecord} (h : (p, v) ∈ l) : (List.lookup p l).isSome := by
  induction l with
  | nil => simp at h
  | cons e rest ih =>
    cases e with
    | mk k b =>
      rw [List.lookup_cons]
      cases hpk : p == k with
      | true => simp
      | false =>
        apply ih
        rcases List.mem_cons.mp h with heq | hmem
        · cases heq
          simp at hpk
        · exact hmem

theorem mem_of_lookup_eq_some {l : List (String × FileRecord)} {p : String}
    {v : FileRecord} (h : List.lookup p l = some v) : (p, v) ∈ l := by
  induction l with
  | nil => simp at h
  | cons e rest ih =>
    cases e with
    | mk k b =>
      rw [List.lookup_cons] at h
      cases hpk : p == k with
      | true =>
        rw [hpk] at h
        cases h
        have : p = k := by
          simpa using hpk
        subst this
        exact List.mem_cons_self _ _
      | false =>
        rw [hpk] at h
        exact List.mem_cons_of_mem _ (ih h)

/-- What the first loop of `compareStates` does to an arbitrary
accumulator, stated compositionally. -/
theorem foldl_localStep_eq (remoteFiles : List (String × FileRecord))
    (l : List (String × FileRecord)) (acc : ComparisonResult) :
    l.foldl (localStep remoteFiles) acc =
      { filesToUpload := acc.filesToUpload ++ uploadsFor remoteFiles l,
        filesToDelete := acc.filesToDelete,
        stats := { unchanged :=
                     acc.stats.unchanged + l.countP (isUnchangedFor remoteFiles),
                   modified :=
                     acc.stats.modified + l.countP (isModifiedFor remoteFiles),
                   new := acc.stats.new + l.countP (isNewFor remoteFiles),
                   deleted := acc.stats.deleted } } := by
  induction l generalizing acc with
  | nil => simp [uploadsFor]
  | cons e rest ih =>
    rw [List.foldl_cons, ih]
    rcases hl : List.lookup e.1 remoteFiles with _ | rf
    · simp [localStep, hl, uploadsFor, isNewFor, isModifiedFor, isUnchangedFor,
        List.countP_cons, List.append_assoc]
      omega
    · by_cases hh : rf.hash = e.2.hash
      · simp [localStep, hl, hh, uploadsFor, isNewFor, isModifiedFor,
          isUnchangedFor, List.countP_cons]
        omega
      · simp [localStep, hl, hh, uploadsFor, isNewFor, isModifiedFor,
          isUnchangedFor, List.countP_cons, List.append_assoc, bne_iff_ne]
        omega

/-- What the second loop of `compareStates` does to an arbitrary
accumulator, stated compositionally. -/
theorem foldl_remoteStep_eq (localFiles : List (String × FileRecord))
    (l : List (String × FileRecord)) (acc : ComparisonResult) :
    l.foldl (remoteStep localFiles) acc =
      { filesToUpload := acc.filesToUpload,
        filesToDelete := acc.filesToDelete ++ deletesFor localFiles l,
        stats := { unchanged := acc.stats.unchanged,
                   modified := acc.stats.modified,
                   new := acc.stats.new,
                   deleted :=
                     acc.stats.deleted + (deletesFor localFiles l).length } } := by
  induction l generalizing acc with
  | nil => simp [deletesFor]
  | cons e rest ih =>
    rw [List.foldl_cons, ih]
    rcases hl : List.lookup e.1 localFiles with _ | v
    · simp [remoteStep, hl, deletesFor, List.filterMap_cons, List.append_assoc,
        List.countP_cons]
      omega
    · simp [remoteStep, hl, deletesFor, List.filterMap_cons]

/-- Closed form of `compareStates`: the loops compute exactly the
compositional functions above. -/
theorem compareStates_eq (ls : SyncState) (rs : Option SyncState) :
    compareStates ls rs =
      { filesToUpload := uploadsFor (remoteFilesOf rs) ls.files,
        filesToDelete := deletesFor ls.files (remoteFilesOf rs),
        stats := { unchanged :=
                     ls.files.countP (isUnchangedFor (remoteFilesOf rs)),
                   modified :=
                     ls.files.countP (isModifiedFor (remoteFilesOf rs)),
                   new := ls.files.countP (isNewFor (remoteFilesOf rs)),
                   deleted :=
                     (deletesFor ls.files (remoteFilesOf rs)).length } } := by
  simp only [compareStates]
  rw [foldl_localStep_eq, foldl_remoteStep_eq]
  simp

theorem uploadsFor_nil_remote (l : List (String × FileRecord)) :
    uploadsFor [] l = l.map (fun e =>
      { action := "new", remotePath := e.1, localPath := e.2.localPath,
        hash := e.2.hash, oldHash := none }) := by
  induction l with
  | nil => rfl
  | cons e rest ih => simp [uploadsFor, ih]

theorem countP_isNewFor_nil (l : List (String × FileRecord)) :
    l.countP (isNewFor []) = l.length := by
  induction l with
  | nil => rfl
  | cons e rest ih => simp [List.countP_cons, isNewFor, ih]

theorem countP_isModifiedFor_nil (l : List (String × FileRecord)) :
    l.countP (isModifiedFor []) = 0 := by
  induction l with
  | nil => rfl
  | cons e rest ih => simp [List.countP_cons, isModifiedFor, ih]

theorem countP_isUnchangedFor_nil (l : List (String × FileRecord)) :
    l.countP (isUnchangedFor []) = 0 := by
  induction l with
  | nil => rfl
  | cons e rest ih => simp [List.countP_cons, isUnchangedFor, ih]

theorem deletesFor_cons (lls : List (String × FileRecord))
    (e : String × FileRecord) (rest : List (String × FileRecord)) :
    deletesFor lls (e :: rest) =
      (if (List.lookup e.1 lls).isNone then [e.1] else []) ++
        deletesFor lls rest := by
  rcases hle : List.lookup e.1 lls with _ | v <;>
    simp [deletesFor, List.filterMap_cons, hle]

theorem deletesFor_nil_local (l : List (String × FileRecord)) :
    deletesFor [] l = l.map Prod.fst := by
  induction l with
  | nil => rfl
  | cons e rest ih => simp [deletesFor_cons, ih]

theorem uploadsFor_eq_nil_of_matching {rfs l : List (String × FileRecord)}
    (h : ∀ e ∈ l, (List.lookup e.1 rfs).map FileRecord.hash = some e.2.hash) :
    uploadsFor rfs l = [] := by
  induction l with
  | nil => rfl
  | cons e rest ih =>
    have he := h e (List.mem_cons_self _ _)
    rcases hle : List.lookup e.1 rfs with _ | rf
    · rw [hle] at he
      simp at he
    · rw [hle] at he
      simp at he
      simp [uploadsFor, hle, he]
      exact ih (fun x hx => h x (List.mem_cons_of_mem _ hx))

theorem countP_isUnchangedFor_of_matching {rfs l : List (String × FileRecord)}
    (h : ∀ e ∈ l, (List.lookup e.1 rfs).map FileRecord.hash = some e.2.hash) :
    l.countP (isUnchangedFor rfs) = l.length := by
  induction l with
  | nil => rfl
  | cons e rest ih =>
    have he := h e (List.mem_cons_self _ _)
    rcases hle : List.lookup e.1 rfs with _ | rf
    · rw [hle] at he
      simp at he
    · rw [hle] at he
      simp at he
      simp [List.countP_cons, isUnchangedFor, hle, he,
        ih (fun x hx => h x (List.mem_cons_of_mem _ hx))]

theorem countP_isModifiedFor_of_matching {rfs l : List (String × FileRecord)}
    (h : ∀ e ∈ l, (List.lookup e.1 rfs).map FileRecord.hash = some e.2.hash) :
    l.countP (isModifiedFor rfs) = 0 := by
  induction l with
  | nil => rfl
  | cons e rest ih =>
    have he := h e (List.mem_cons_self _ _)
    rcases hle : List.lookup e.1 rfs with _ | rf
    · rw [hle] at he
      simp at he
    · rw [hle] at he
      simp at he
      simp [List.countP_cons, isModifiedFor, hle, he,
        ih (fun x hx => h x (List.mem_cons_of_mem _ hx))]

theorem countP_isNewFor_of_matching {rfs l : List (String × FileRecord)}
    (h : ∀ e ∈ l, (List.lookup e.1 rfs).map FileRecord.hash = some e.2.hash) :
    l.countP (isNewFor rfs) = 0 := by
  induction l with
  | nil => rfl
  | cons e rest ih =>
    have he := h e (List.mem_cons_self _ _)
    rcases hle : List.lookup e.1 rfs with _ | rf
    · rw [hle] at he
      simp at he
    · simp [List.countP_cons, isNewFor, hle,
        ih (fun x hx => h x (List.mem_cons_of_mem _ hx))]

theorem deletesFor_eq_nil_of_isSome {lls rfs : List (String × FileRecord)}
    (h : ∀ e ∈ rfs, (List.lookup e.1 lls).isSome) :
    deletesFor lls rfs = [] := by
  induction rfs with
  | nil => rfl
  | cons e rest ih =>
    have he := h e (List.mem_cons_self _ _)
    rcases hle : List.lookup e.1 lls with _ | v
    · rw [hle] at he
      simp at he
    · simp [deletesFor_cons, hle]
      exact ih (fun x hx => h x (List.mem_cons_of_mem _ hx))

theorem lookup_eq_none_of_mem_deletesFor {lls rfs : List (String × FileRecord)}
    {q : String} (h : q ∈ deletesFor lls rfs) :
    List.lookup q lls = none := by
  induction rfs with
  | nil => simp [deletesFor] at h
  | cons e rest ih =>
    rw [deletesFor_cons] at h
    rcases hle : List.lookup e.1 lls with _ | v
    · rw [hle] at h
      simp at h
      rcases h with h | h
      · rw [h]
        exact hle
      · exact ih h
    · rw [hle] at h
      simp at h
      exact ih h

theorem of_mem_uploadsFor {rfs l : List (String × FileRecord)}
    {u : UploadEntry} (hu : u ∈ uploadsFor rfs l) :
    ∃ e ∈ l, e.1 = u.remotePath ∧ isUnchangedFor rfs e = false := by
  induction l with
  | nil => simp [uploadsFor] at hu
  | cons e rest ih =>
    rw [uploadsFor] at hu
    rcases List.mem_append.mp hu with h | h
    · rcases hle : List.lookup e.1 rfs with _ | rf
      · rw [hle] at h
        simp at h
        refine ⟨e, List.mem_cons_self _ _, ?_, ?_⟩
        · rw [h]
        · simp [isUnchangedFor, hle]
      · rw [hle] at h
        by_cases hh : rf.hash = e.2.hash
        · simp [hh] at h
        · simp [hh] at h
          refine ⟨e, List.mem_cons_self _ _, ?_, ?_⟩
          · rw [h]
          · simp [isUnchangedFor, hle]
            exact fun hc => absurd hc hh
    · obtain ⟨x, hx, h1, h2⟩ := ih h
      exact ⟨x, List.mem_cons_of_mem _ hx, h1, h2⟩

theorem mem_unique_of_nodup_keys {l : List (String × FileRecord)}
    (hnodup : (l.map Prod.fst).Nodup) {p : String} {a b : FileRecord}
    (ha : (p, a) ∈ l) (hb : (p, b) ∈ l) : a = b := by
  induction l with
  | nil => simp at ha
  | cons e rest ih =>
    rw [List.map_cons, List.nodup_cons] at hnodup
    rcases List.mem_cons.mp ha with h1 | h1 <;>
      rcases List.mem_cons.mp hb with h2 | h2
    · exact congrArg Prod.snd (h1.trans h2.symm)
    · exact absurd (List.mem_map.mpr ⟨(p, b), h2, rfl⟩)
        (by rw [← h1] at hnodup; exact hnodup.1)
    · exact absurd (List.mem_map.mpr ⟨(p, a), h1, rfl⟩)
        (by rw [← h2] at hnodup; exact hnodup.1)
    · exact ih hnodup.2 h1 h2

theorem length_uploadsFor (rfs l : List (String × FileRecord)) :
    (uploadsFor rfs l).length =
      l.countP (isNewFor rfs) + l.countP (isModifiedFor rfs) := by
  induction l with
  | nil => simp [uploadsFor]
  | cons e rest ih =>
    rcases hle : List.lookup e.1 rfs with _ | rf
    · simp [uploadsFor, hle, isNewFor, isModifiedFor, List.countP_cons, ih]
      omega
    · by_cases hh : rf.hash = e.2.hash
      · simp [uploadsFor, hle, hh, isNewFor, isModifiedFor, List.countP_cons, ih]
      · simp [uploadsFor, hle, hh, isNewFor, isModifiedFor, List.countP_cons,
          ih, bne_iff_ne]
        omega

theorem countP_classification (rfs l : List (String × FileRecord)) :
    l.countP (isNewFor rfs) + l.countP (isModifiedFor rfs) +
      l.countP (isUnchangedFor rfs) = l.length := by
  induction l with
  | nil => simp
  | cons e rest ih =>
    rcases hle : List.lookup e.1 rfs with _ | rf
    · simp [isNewFor, isModifiedFor, isUnchangedFor, hle, List.countP_cons]
      omega
    · by_cases hh : rf.hash = e.2.hash
      · simp [isNewFor, isModifiedFor, isUnchangedFor, hle, hh,
          List.countP_cons]
        omega
      · simp [isNewFor, isModifiedFor, isUnchangedFor, hle, hh,
          List.countP_cons, bne_iff_ne]
        omega

theorem foldl_const_acc {α : Type u} {β : Type v} (l : List β) (acc : α) :
    l.foldl (fun x _ => x) acc = acc := by
  induction l generalizing acc with
  | nil => rfl
  | cons e rest ih =>
    rw [List.foldl_cons]
    exact ih acc

theorem jsonToFileRecord_roundtrip (r : FileRecord) :
    jsonToFileRecord (fileRecordToJson r) = some r := rfl

theorem jsonToFiles_roundtrip (files : List (String × FileRecord)) :
    jsonToFiles (.obj (files.map (fun e => (e.1, fileRecordToJson e.2)))) =
      some files := by
  induction files with
  | nil => rfl
  | cons e rest ih =>
    simp only [jsonToFiles, List.map_cons, jsonToFileEntries,
      jsonToFileRecord_roundtrip] at ih ⊢
    rw [ih]

theorem jsonToSyncState_roundtrip (s : SyncState) :
    jsonToSyncState (syncStateToJson s) = some s := by
  obtain ⟨v, ls, files⟩ := s
  cases ls with
  | none =>
    simp [syncStateToJson, jsonToSyncState, getField, jsonToLastSync,
      List.lookup_cons, jsonToFiles_roundtrip]
  | some t =>
    simp [syncStateToJson, jsonToSyncState, getField, jsonToLastSync,
      List.lookup_cons, jsonToFiles_roundtrip]

/-! ## The claims -/

/-- Claim C1: a path present in both states with equal `hash` is
classified unchanged by `compareStates` — it is not queued for upload,
not queued for deletion, and is counted in `stats.unchanged` — regardless
of the recorded `size` and `mtime` of the two records (the hypotheses
constrain only the hashes; the records are otherwise arbitrary). -/
theorem compareStates_unchanged_on_equal_fingerprint
    (ls : SyncState) (rs : Option SyncState) (p : String)
    (lf rf : FileRecord)
    (hnodup : (ls.files.map Prod.fst).Nodup)
    (hmem : (p, lf) ∈ ls.files)
    (hremote : List.lookup p (remoteFilesOf rs) = some rf)
    (hhash : rf.hash = lf.hash) :
    p ∉ (compareStates ls rs).filesToUpload.map UploadEntry.remotePath ∧
    p ∉ (compareStates ls rs).filesToDelete ∧
    0 < (compareStates ls rs).stats.unchanged := by
  rw [compareStates_eq]
  refine ⟨?_, ?_, ?_⟩
  · intro hc
    rcases List.mem_map.mp hc with ⟨u, hu, hup⟩
    obtain ⟨e, hel, hep, hunch⟩ := of_mem_uploadsFor hu
    have hep' : e.1 = p := by rw [hep, hup]
    have hmem2 : (p, e.2) ∈ ls.files := by
      rw [← hep']
      exact hel
    have h2 : e.2 = lf := mem_unique_of_nodup_keys hnodup hmem2 hmem
    have htrue : isUnchangedFor (remoteFilesOf rs) e = true := by
      simp [isUnchangedFor, hep', hremote, h2, hhash]
    rw [hunch] at htrue
    cases htrue
  · intro hc
    have hnone := lookup_eq_none_of_mem_deletesFor hc
    have hsome := lookup_isSome_of_mem hmem
    rw [hnone] at hsome
    cases hsome
  · rw [List.countP_pos_iff]
    refine ⟨(p, lf), hmem, ?_⟩
    simp [isUnchangedFor, hremote, hhash]

/-- Witness for C1: `file1.txt` carries hash `hash1` on both sides but
size 8 / 999 and different timestamps; it is neither uploaded nor
deleted and is counted unchanged. -/
theorem compareStates_unchanged_on_equal_fingerprint_witness :
    "file1.txt" ∉ (compareStates sampleLocalState
        (some sampleRemoteState)).filesToUpload.map UploadEntry.remotePath ∧
    "file1.txt" ∉ (compareStates sampleLocalState
        (some sampleRemoteState)).filesToDelete ∧
    0 < (compareStates sampleLocalState (some sampleRemoteState)).stats.unchanged :=
  compareStates_unchanged_on_equal_fingerprint sampleLocalState
    (some sampleRemoteState) "file1.txt"
    { hash := "hash1", size := 8, mtime := "2023-01-02T00:00:00.000Z",
      localPath := "/local/file1.txt" }
    { hash := "hash1", size := 999, mtime := "2022-12-31T00:00:00.000Z",
      localPath := "" }
    (by decide) (by decide) (by decide) (by decide)

/-- Claim C2: against an absent remote state (`null`), `compareStates`
returns exactly one `"new"`-tagged upload entry per local path, in
iteration order, and an empty deletion list. -/
theorem compareStates_absent_remote (localState : SyncState) :
    compareStates localState none =
      { filesToUpload := localState.files.map (fun e =>
          { action := "new", remotePath := e.1, localPath := e.2.localPath,
            hash := e.2.hash, oldHash := none }),
        filesToDelete := [],
        stats := { unchanged := 0, modified := 0,
                   new := localState.files.length, deleted := 0 } } := by
  rw [compareStates_eq]
  simp [remoteFilesOf, uploadsFor_nil_remote, countP_isNewFor_nil,
    countP_isModifiedFor_nil, countP_isUnchangedFor_nil, deletesFor]

/-- Claim C3: an empty local state against a remote state with N entries
yields no uploads and queues exactly the N remote paths for deletion,
with `stats.deleted = N`. -/
theorem compareStates_empty_local (version : String) (lastSync : Option String)
    (remoteState : SyncState) :
    compareStates { version := version, lastSync := lastSync, files := [] }
        (some remoteState) =
      { filesToUpload := [],
        filesToDelete := remoteState.files.map Prod.fst,
        stats := { unchanged := 0, modified := 0, new := 0,
                   deleted := remoteState.files.length } } := by
  rw [compareStates_eq]
  simp [remoteFilesOf, uploadsFor, deletesFor_nil_local]

/-- Claim C4: when the remote state covers the same path set with the
same hash for every path as the local state, `compareStates` plans no
uploads and no deletions and counts every local entry unchanged. -/
theorem compareStates_identical_content (ls : SyncState) (rs : Option SyncState)
    (hsame : ∀ e ∈ ls.files,
      (List.lookup e.1 (remoteFilesOf rs)).map FileRecord.hash = some e.2.hash)
    (hcover : ∀ e ∈ remoteFilesOf rs, (List.lookup e.1 ls.files).isSome) :
    compareStates ls rs =
      { filesToUpload := [], filesToDelete := [],
        stats := { unchanged := ls.files.length, modified := 0, new := 0,
                   deleted := 0 } } := by
  rw [compareStates_eq]
  rw [uploadsFor_eq_nil_of_matching hsame, deletesFor_eq_nil_of_isSome hcover,
    countP_isUnchangedFor_of_matching hsame,
    countP_isModifiedFor_of_matching hsame, countP_isNewFor_of_matching hsame]
  simp

/-- Witness for C4: `sampleRemoteState` has the same two paths and hashes
as `sampleLocalState` (different sizes and timestamps). -/
theorem compareStates_identical_content_witness :
    compareStates sampleLocalState (some sampleRemoteState) =
      { filesToUpload := [], filesToDelete := [],
        stats := { unchanged := sampleLocalState.files.length, modified := 0,
                   new := 0, deleted := 0 } } :=
  compareStates_identical_content sampleLocalState (some sampleRemoteState)
    (by decide) (by decide)

/-- Claim C5 counterexample: a successfully parsed manifest whose
`version` field is `"9.9.9"` — not the `"1.0.0"` this engine writes — is
returned unmodified by `downloadRemoteState` instead of being treated as
"no manifest" (`none`), refuting the claimed version gate. -/
theorem downloadRemoteState_unknown_version_cex :
    downloadRemoteState (.downloaded (some unknownVersionManifest)) =
        some unknownVersionManifest ∧
    getField unknownVersionManifest "version" = some (.str "9.9.9") ∧
    downloadRemoteState (.downloaded (some unknownVersionManifest)) ≠ none := by
  refine ⟨rfl, rfl, ?_⟩
  simp [downloadRemoteState, downloadRemoteStateBody]

/-- Claim C5 amended: `downloadRemoteState` performs no schemaVersion
validation at all — whatever string the `version` field of a parsed
manifest holds, the manifest is returned unmodified. -/
theorem downloadRemoteState_ignores_version (version : String)
    (fields : List (String × Json)) :
    downloadRemoteState
        (.downloaded (some (.obj (("version", .str version) :: fields)))) =
      some (.obj (("version", .str version) :: fields)) := rfl

/-- Claim C6: for each failing behaviour — manifest absent, transport
read failure, bytes that fail to parse — `downloadRemoteState` returns
`none`; and whenever the body leaves with an exception, the `catch`
converts it to `none`, so no underlying error ever propagates (the
function is total into `Option Json`). -/
theorem downloadRemoteState_swallows_errors :
    downloadRemoteState .missing = none ∧
    (∀ message, downloadRemoteState (.transportFailure message) = none) ∧
    downloadRemoteState (.downloaded none) = none ∧
    (∀ outcome message, downloadRemoteStateBody outcome = .error message →
      downloadRemoteState outcome = none) := by
  refine ⟨rfl, fun _ => rfl, rfl, ?_⟩
  intro outcome message h
  simp [downloadRemoteState, h]

/-- Witness for C6 at a concrete transport failure. -/
theorem downloadRemoteState_swallows_errors_witness :
    downloadRemoteState (.transportFailure "Download failed") = none :=
  downloadRemoteState_swallows_errors.2.2.2
    (.transportFailure "Download failed") "Download failed" rfl

/-- Claim C7 counterexample: well-formed JSON missing the required
`files` mapping triggers no `FormatError`-to-`none` conversion —
`downloadRemoteState` returns the parsed object, and the subsequent
`remoteState.files` access performed by `run` (`src/index.js`, line 79)
is undefined on it, the `TypeError` that makes the run abort instead of
degrading to a full sync. -/
theorem downloadRemoteState_missing_required_cex :
    downloadRemoteState (.downloaded (some missingFilesManifest)) =
        some missingFilesManifest ∧
    downloadRemoteState (.downloaded (some missingFilesManifest)) ≠ none ∧
    getField missingFilesManifest "files" = none ∧
    remoteFilesAccess missingFilesManifest = none := by
  refine ⟨rfl, ?_, rfl, rfl⟩
  simp [downloadRemoteState, downloadRemoteStateBody]

/-- Claim C7 amended: parsing performs no required-field validation — a
well-formed manifest with no `files` field is returned as-is by
`downloadRemoteState` (never converted to `none`), and the `files`
access on the returned value is undefined. -/
theorem downloadRemoteState_missing_required_returned
    (fields : List (String × Json))
    (hnf : List.lookup "files" fields = none) :
    downloadRemoteState (.downloaded (some (.obj fields))) =
        some (.obj fields) ∧
    remoteFilesAccess (.obj fields) = none := by
  refine ⟨rfl, ?_⟩
  simp [remoteFilesAccess, getField, hnf]

/-- Witness for the amended C7 at a concrete field list. -/
theorem downloadRemoteState_missing_required_returned_witness :
    downloadRemoteState
        (.downloaded (some (.obj [("version", Json.str "1.0.0")]))) =
      some (.obj [("version", Json.str "1.0.0")]) ∧
    remoteFilesAccess (.obj [("version", Json.str "1.0.0")]) = none :=
  downloadRemoteState_missing_required_returned
    [("version", Json.str "1.0.0")] rfl

/-- Claim C8: serialization as done by `uploadState` round-trips —
reading back the JSON tree it writes recovers the manifest exactly — and
is a pure function of the manifest value: two manifests with equal
serialized form are equal, so a manifest value determines its serialized
bytes uniquely. -/
theorem uploadState_serialization_roundtrip (s t : SyncState) :
    jsonToSyncState (syncStateToJson s) = some s ∧
    (syncStateToJson s = syncStateToJson t → s = t) := by
  refine ⟨jsonToSyncState_roundtrip s, fun h => ?_⟩
  have hs := jsonToSyncState_roundtrip s
  rw [h, jsonToSyncState_roundtrip t] at hs
  exact (Option.some.inj hs).symm

/-- Witness for C8 at the concrete `sampleLocalState`. -/
theorem uploadState_serialization_roundtrip_witness :
    jsonToSyncState (syncStateToJson sampleLocalState) =
        some sampleLocalState ∧
    sampleLocalState = sampleLocalState :=
  ⟨(uploadState_serialization_roundtrip sampleLocalState sampleLocalState).1,
   (uploadState_serialization_roundtrip sampleLocalState sampleLocalState).2 rfl⟩

/-- Claim C9: with dry-run enabled, `run` performs no remote writes for
any computed plan — no `client.uploadFile` for plan entries, no
`client.deleteFile` for orphans, and no `uploadState` publish — whatever
the plan and the orphan-deletion setting.  The plan itself is computed
and summarized before this phase (`compareStates` and
`generateSyncSummary` take no dry-run input), so reporting is
unaffected. -/
theorem runWrites_dry_run_empty (comparison : ComparisonResult)
    (deleteOrphaned : Bool) (remotePath : String) :
    runWrites comparison true deleteOrphaned remotePath = [] := by
  simp [runWrites, foldl_const_acc]

/-- Claim C10: the plan returned by `compareStates` is internally
consistent: the upload queue length equals `new + modified`, the
deletion queue length equals `deleted`, every local entry is classified
exactly once (`new + modified + unchanged = |localState.files|`), and no
path is queued both for upload and for deletion. -/
theorem compareStates_plan_consistent (ls : SyncState) (rs : Option SyncState) :
    (compareStates ls rs).filesToUpload.length =
        (compareStates ls rs).stats.new +
          (compareStates ls rs).stats.modified ∧
    (compareStates ls rs).filesToDelete.length =
        (compareStates ls rs).stats.deleted ∧
    (compareStates ls rs).stats.new + (compareStates ls rs).stats.modified +
        (compareStates ls rs).stats.unchanged = ls.files.length ∧
    ∀ u ∈ (compareStates ls rs).filesToUpload,
      u.remotePath ∉ (compareStates ls rs).filesToDelete := by
  rw [compareStates_eq]
  refine ⟨length_uploadsFor _ _, rfl, countP_classification _ _, ?_⟩
  intro u hu hc
  obtain ⟨e, hel, hep, _⟩ := of_mem_uploadsFor hu
  have hnone := lookup_eq_none_of_mem_deletesFor hc
  have hsome : (List.lookup u.remotePath ls.files).isSome := by
    rw [← hep]
    exact lookup_isSome_of_mem (show (e.1, e.2) ∈ ls.files from hel)
  rw [hnone] at hsome
  cases hsome

/-- Witness for C10 on a mixed plan (one unchanged, one modified, one
orphan): the length identity holds and the modified upload path is not
queued for deletion. -/
theorem compareStates_plan_consistent_witness :
    (compareStates sampleLocalState
        (some mixedRemoteState)).filesToUpload.length =
      (compareStates sampleLocalState (some mixedRemoteState)).stats.new +
        (compareStates sampleLocalState (some mixedRemoteState)).stats.modified ∧
    ({ action := "modified", remotePath := "file2.txt",
       localPath := "/local/file2.txt", hash := "hash2",
       oldHash := some "oldhash2" } : UploadEntry).remotePath ∉
      (compareStates sampleLocalState (some mixedRemoteState)).filesToDelete :=
  ⟨(compareStates_plan_consistent sampleLocalState (some mixedRemoteState)).1,
   (compareStates_plan_consistent sampleLocalState (some mixedRemoteState)).2.2.2
     _ (by decide)⟩

end FastFtpSiteSync
